import Mathlib

/-!
# MimiC (Test-01) — shallow embedding and verification

A shallow embedding of the MimiC kernel, allocator, scheduler, loader,
FAT32 layer and compiler back end (directory `Test-01`: `mimic_kernel.c`,
`mimic_codegen.c`, `mimic_linker.c`, `mimic_fat32.c`, with constants from
`mimic.h` / `mimic_fat32.h`), together with theorems settling the spec
claims about them.

Modelling conventions:
* C `uint32_t` / `size_t` values are `Nat`; where 32-bit wrap-around can
  matter the reduction `% 2^32` is written explicitly.  Signed values are
  `Int`, stored via their two's-complement 32-bit pattern.
* Pointers are `Nat` addresses; the C null pointer is address `0`.
* Arrays are `List`s; the C loops become folds or structural recursions
  that mirror the loop bodies.
* Hardware and block-device failures are out of scope of the claims; the
  embedded functions model the successful-I/O behaviour of the code.

The compile-time target is the default one (`MIMIC_TARGET_RP2350 = 0`,
i.e. RP2040), which fixes the constants below.
-/

-- ============================================================================
-- Constants from mimic.h
-- ============================================================================

def MIMIC_OK : Int := 0
def MIMIC_ERR_NOMEM : Int := -1
def MIMIC_ERR_INVAL : Int := -2
def MIMIC_ERR_NOENT : Int := -3
def MIMIC_ERR_NOSYS : Int := -7
def MIMIC_ERR_CORRUPT : Int := -8
def MIMIC_ERR_NOEXEC : Int := -10

def MIMI_MAGIC : Nat := 0x494D494D
def MIMI_VERSION : Nat := 1
def MIMI_ARCH_CORTEX_M0P : Nat := 0

def MIMI_SECT_NULL : Nat := 0
def MIMI_SECT_TEXT : Nat := 1
def MIMI_SECT_RODATA : Nat := 2
def MIMI_SECT_DATA : Nat := 3
def MIMI_SECT_BSS : Nat := 4

def MIMI_RELOC_ABS32 : Nat := 0
def MIMI_RELOC_REL32 : Nat := 1
def MIMI_RELOC_THUMB_CALL : Nat := 2

def MIMI_SYM_LOCAL : Nat := 0
def MIMI_SYM_GLOBAL : Nat := 1
def MIMI_SYM_EXTERN : Nat := 2
def MIMI_SYM_SYSCALL : Nat := 3

-- RP2040 configuration (MIMIC_TARGET_RP2350 = 0)
def MIMIC_KERNEL_HEAP : Nat := 50 * 1024
def MIMIC_USER_HEAP : Nat := 180 * 1024
def MIMIC_MAX_TASKS : Nat := 8
def MIMIC_MAX_MEM_BLOCKS : Nat := 64
def MIMIC_MEM_ALIGN : Nat := 32
def MIMIC_MIN_BLOCK_SPLIT : Nat := 64

/-- Two's-complement 32-bit bit pattern of an integer
(the value a C `uint32_t` holds after converting `x`). -/
def toBits32 (x : Int) : Nat := (x % (2 ^ 32 : Int)).toNat

-- ============================================================================
-- Loader THUMB_CALL patching (mimic_kernel.c, mimic_load_binary,
-- case MIMI_RELOC_THUMB_CALL, lines 591-608)
-- ============================================================================

/-- The two BL halfwords the loader writes for a `THUMB_CALL` relocation:
`offset = (int32_t)(sym_value - patch_addr - 4)`, then
`s = (offset >> 24) & 1`, `i1 = (offset >> 23) & 1`, `i2 = (offset >> 22) & 1`,
`imm10 = (offset >> 12) & 0x3FF`, `imm11 = (offset >> 1) & 0x7FF`,
`j1 = (~i1 ^ s) & 1`, `j2 = (~i2 ^ s) & 1`,
`instr[0] = 0xF000 | (s << 10) | imm10`,
`instr[1] = 0xD000 | (j1 << 13) | (j2 << 11) | imm11`.
The arithmetic right shifts of the signed offset followed by the masks
extract bits of its 32-bit two's-complement pattern, which is how the
extraction is written here. -/
def mimic_thumb_call_halfwords (sym_value patch_addr : Nat) : Nat × Nat :=
  let off : Nat := toBits32 ((sym_value : Int) - (patch_addr : Int) - 4)
  let s := (off >>> 24) &&& 1
  let i1 := (off >>> 23) &&& 1
  let i2 := (off >>> 22) &&& 1
  let imm10 := (off >>> 12) &&& 0x3FF
  let imm11 := (off >>> 1) &&& 0x7FF
  let j1 := ((1 - i1) ^^^ s) &&& 1
  let j2 := ((1 - i2) ^^^ s) &&& 1
  (0xF000 ||| (s <<< 10) ||| imm10,
   0xD000 ||| (j1 <<< 13) ||| (j2 <<< 11) ||| imm11)

/-- Modelled from the spec's §4.6 formula, applied to the 32-bit pattern of
the byte offset: extract `S` (bit 24), `I1` (23), `I2` (22),
`imm10` (bits 12-21), `imm11` (bits 1-11); compute `J1 = !I1 XOR S`,
`J2 = !I2 XOR S`; emit `hi = 0xF000 | (S<<10) | imm10` and
`lo = 0xD000 | (J1<<13) | (J2<<11) | imm11`. -/
def spec_bl_halfwords (off32 : Nat) : Nat × Nat :=
  let s := (off32 >>> 24) &&& 1
  let i1 := (off32 >>> 23) &&& 1
  let i2 := (off32 >>> 22) &&& 1
  let imm10 := (off32 >>> 12) &&& 0x3FF
  let imm11 := (off32 >>> 1) &&& 0x7FF
  let j1 := (if i1 = 0 then 1 else 0) ^^^ s
  let j2 := (if i2 = 0 then 1 else 0) ^^^ s
  (0xF000 ||| (s <<< 10) ||| imm10,
   0xD000 ||| (j1 <<< 13) ||| (j2 <<< 11) ||| imm11)

-- ============================================================================
-- Header validation (mimic_kernel.c, mimic_validate_header, lines 368-397)
-- ============================================================================

/-- The 64-byte `.mimi` header (`MimiHeader` from `mimic.h`).
The `name` bytes and the `_pad` / `_reserved` filler are carried for
completeness but never inspected by the embedded functions that read
headers. -/
structure MimiHeader where
  magic : Nat
  version : Nat
  flags : Nat
  arch : Nat
  entry_offset : Nat
  text_size : Nat
  rodata_size : Nat
  data_size : Nat
  bss_size : Nat
  reloc_count : Nat
  symbol_count : Nat
  stack_request : Nat
  heap_request : Nat
  name : List Nat
deriving DecidableEq, Repr

/-- `mimic_validate_header`: the checks run in source order and each failure
returns its own error code (RP2040 target, so the accepted architecture is
`MIMI_ARCH_CORTEX_M0P`). -/
def mimic_validate_header (hdr : MimiHeader) : Int :=
  if hdr.magic ≠ MIMI_MAGIC then MIMIC_ERR_CORRUPT
  else if hdr.version ≠ MIMI_VERSION then MIMIC_ERR_INVAL
  else if hdr.arch ≠ MIMI_ARCH_CORTEX_M0P then MIMIC_ERR_NOEXEC
  else if hdr.text_size = 0 then MIMIC_ERR_INVAL
  else if hdr.entry_offset ≥ hdr.text_size then MIMIC_ERR_INVAL
  else MIMIC_OK

-- ============================================================================
-- Scheduler (mimic_kernel.c, scheduler_tick, lines 654-696)
-- ============================================================================

/-- Task states (`MimicTaskState` from `mimic.h`). -/
inductive MimicTaskState where
  | free
  | ready
  | running
  | blocked
  | sleeping
  | zombie
deriving DecidableEq, Repr

/-- The TCB fields the scheduler reads and writes. -/
structure MimicTCB where
  id : Nat
  state : MimicTaskState
  priority : Nat
  wake_time : Nat
deriving DecidableEq, Repr

def tcbDefault : MimicTCB := ⟨0, .free, 0, 0⟩

/-- The kernel state the scheduler touches: the task array
(`MIMIC_MAX_TASKS` slots) and `current_task`. -/
structure SchedKernel where
  tasks : List MimicTCB
  current_task : Nat
deriving DecidableEq, Repr

/-- One iteration of the wake-up loop (`for i = 1; i < MIMIC_MAX_TASKS`):
a sleeping task in slots 1.. whose wake time has passed becomes READY. -/
def wake_step (now_ms : Nat) (i : Nat) (t : MimicTCB) : MimicTCB :=
  if 1 ≤ i ∧ i < MIMIC_MAX_TASKS ∧ t.state = .sleeping ∧ t.wake_time ≤ now_ms
  then { t with state := .ready } else t

/-- One iteration of the pick loop: `if tasks[i].state == READY and
tasks[i].priority < best_prio then best_prio, next := tasks[i].priority, i`.
The accumulator is `(best_prio, next slot)`. -/
def sched_pick_step (ts : List MimicTCB) (acc : Nat × Nat) (i : Nat) : Nat × Nat :=
  if 1 ≤ i ∧ (ts.getD i tcbDefault).state = .ready ∧
      (ts.getD i tcbDefault).priority < acc.1
  then ((ts.getD i tcbDefault).priority, i) else acc

/-- The pick loop over slots `1 .. MIMIC_MAX_TASKS - 1`, starting from the
idle default `(best_prio, next) = (255, 0)`. -/
def sched_pick (ts : List MimicTCB) : Nat × Nat :=
  (List.range MIMIC_MAX_TASKS).foldl (sched_pick_step ts) (255, 0)

/-- `scheduler_tick`: wake due sleepers, pick the READY task with the lowest
priority (slot order breaks ties), and if the choice differs from
`current_task` perform the context switch
(`tasks[current_task].state = READY; current_task = next->id;
next->state = RUNNING`).  The timing and statistics counters play no part
in the claims and are omitted. -/
def scheduler_tick (now_ms : Nat) (k : SchedKernel) : SchedKernel :=
  let tasks1 := k.tasks.enum.map (fun p => wake_step now_ms p.1 p.2)
  let pick := sched_pick tasks1
  let nextIdx := pick.2
  let nextId := (tasks1.getD nextIdx tcbDefault).id
  if nextId ≠ k.current_task then
    let tasks2 := tasks1.set k.current_task
      { tasks1.getD k.current_task tcbDefault with state := .ready }
    let tasks3 := tasks2.set nextIdx
      { tasks2.getD nextIdx tcbDefault with state := .running }
    { tasks := tasks3, current_task := nextId }
  else
    { k with tasks := tasks1 }


-- ============================================================================
-- Arena allocator (mimic_kernel.c, lines 123-302)
-- ============================================================================

/-- An arena block (`MimicMemBlock` from `mimic.h`); `addr` is the pointer
as a numeric address. -/
structure MimicMemBlock where
  addr : Nat
  size : Nat
  task_id : Nat
  free : Bool
  pinned : Bool
deriving DecidableEq, Repr

def memBlockDefault : MimicMemBlock := ⟨0, 0, 0, false, false⟩

/-- The kernel statistics the allocator updates. -/
structure AllocStats where
  total_allocs : Nat
  total_frees : Nat
  failed_allocs : Nat
deriving DecidableEq, Repr

/-- One memory pool: the block table, the free-byte counter and the
statistics.  `free_bytes` is a `uint32_t` in the source; in every reachable
pool it equals the number of free bytes, so the updates below never wrap
and plain `Nat` arithmetic (with truncated subtraction) represents them
exactly. -/
structure MemPool where
  blocks : List MimicMemBlock
  free_bytes : Nat
  stats : AllocStats
deriving DecidableEq, Repr

/-- `size = (size + MIMIC_MEM_ALIGN - 1) & ~(MIMIC_MEM_ALIGN - 1)` on a
32-bit `size_t`: add 31 (mod 2^32) and clear the low five bits. -/
def mimic_align_size (size : Nat) : Nat :=
  ((size + 31) % 2 ^ 32) &&& 0xFFFFFFE0

/-- The best-fit scan of `mem_alloc_from_pool`: walk the block table
keeping `(best_idx, best_size)` (`none` for the initial
`best_idx = best_size = 0xFFFFFFFF`), take a free block of sufficient size
whenever it is strictly smaller than the best so far, and stop early on an
exact match. -/
def best_fit_search : List MimicMemBlock → Nat → Nat → Option (Nat × Nat) →
    Option (Nat × Nat)
  | [], _, _, best => best
  | b :: rest, idx, sz, best =>
    if b.free = true ∧ sz ≤ b.size ∧
        b.size < (match best with | some q => q.2 | none => 0xFFFFFFFF) then
      (if b.size = sz then some (idx, b.size)
       else best_fit_search rest (idx + 1) sz (some (idx, b.size)))
    else best_fit_search rest (idx + 1) sz best

/-- `mem_alloc_from_pool`: reject size 0, align the request, best-fit scan;
on failure bump `failed_allocs`; on success split off the tail when the
chosen block exceeds the request by more than `MIMIC_MIN_BLOCK_SPLIT` and
the block table is not full, then mark the block used, stamp the owner and
return its address. -/
def mem_alloc_from_pool (st : MemPool) (size task_id max_blocks : Nat) :
    MemPool × Option Nat :=
  if size = 0 then (st, none)
  else
    let sz := mimic_align_size size
    match best_fit_search st.blocks 0 sz none with
    | none =>
      ({ st with
          stats := { st.stats with
            failed_allocs := st.stats.failed_allocs + 1 } }, none)
    | some (best_idx, _) =>
      let blk := st.blocks.getD best_idx memBlockDefault
      let blocks1 :=
        if sz + MIMIC_MIN_BLOCK_SPLIT < blk.size ∧
            st.blocks.length < max_blocks then
          (st.blocks.set best_idx { blk with size := sz }) ++
            [⟨blk.addr + sz, blk.size - sz, 0, true, false⟩]
        else st.blocks
      let blk1 := blocks1.getD best_idx memBlockDefault
      let blocks2 :=
        blocks1.set best_idx { blk1 with free := false, task_id := task_id }
      ({ blocks := blocks2,
         free_bytes := st.free_bytes - blk1.size,
         stats := { st.stats with
           total_allocs := st.stats.total_allocs + 1 } },
       some blk.addr)

/-- The search loop of `mem_free_in_pool`: first block with the given
address that is not free. -/
def find_used_block : List MimicMemBlock → Nat → Nat → Option Nat
  | [], _, _ => none
  | b :: rest, idx, p =>
    if b.addr = p ∧ b.free = false then some idx
    else find_used_block rest (idx + 1) p

/-- `mem_free_in_pool`: null is a no-op; otherwise find the used block at
the address, refuse if pinned, else mark it free, refund the bytes and
count the free. -/
def mem_free_in_pool (st : MemPool) (p : Nat) : MemPool :=
  if p = 0 then st
  else
    match find_used_block st.blocks 0 p with
    | none => st
    | some i =>
      let b := st.blocks.getD i memBlockDefault
      if b.pinned = true then st
      else
        { blocks := st.blocks.set i { b with free := true },
          free_bytes := st.free_bytes + b.size,
          stats := { st.stats with
            total_frees := st.stats.total_frees + 1 } }

/-- `mimic_ufree`: scan for a block with the given address owned by the
calling task; only if one exists, hand the pointer to
`mem_free_in_pool`. -/
def mimic_ufree (st : MemPool) (task_id p : Nat) : MemPool :=
  if st.blocks.any (fun b => b.addr == p && b.task_id == task_id) then
    mem_free_in_pool st p
  else st

/-- One full rightward bubble pass (the inner loop of the sort in
`mem_coalesce_pool`): swap address-disordered neighbours. -/
def bubble_pass : List MimicMemBlock → List MimicMemBlock
  | [] => []
  | [b] => [b]
  | a :: b :: rest =>
    if b.addr < a.addr then b :: bubble_pass (a :: rest)
    else a :: bubble_pass (b :: rest)
termination_by l => l.length

/-- The bubble sort of `mem_coalesce_pool`.  The source runs `count - 1`
outer passes with a shrinking inner bound; running `count` full passes
computes the same table (extra passes on a sorted table are the
identity). -/
def bubble_sort_by_addr (l : List MimicMemBlock) : List MimicMemBlock :=
  (List.range l.length).foldl (fun acc _ => bubble_pass acc) l

/-- One step of the merge loop of `mem_coalesce_pool`, with the already
written prefix kept in reverse: an adjacent pair of free blocks is merged
into the previously written block, anything else is written out. -/
def coalesce_step (acc : List MimicMemBlock) (b : MimicMemBlock) :
    List MimicMemBlock :=
  match acc with
  | [] => [b]
  | prev :: restRev =>
    if prev.free = true ∧ b.free = true ∧ prev.addr + prev.size = b.addr then
      { prev with size := prev.size + b.size } :: restRev
    else b :: prev :: restRev

/-- The merge-adjacent-free-blocks pass of `mem_coalesce_pool`. -/
def merge_adjacent (l : List MimicMemBlock) : List MimicMemBlock :=
  (l.foldl coalesce_step []).reverse

/-- `mem_coalesce_pool`: sort the block table by address, then merge
adjacent free blocks. -/
def mem_coalesce_pool (st : MemPool) : MemPool :=
  { st with blocks := merge_adjacent (bubble_sort_by_addr st.blocks) }

/-- `mimic_task_free_all_memory`: mark every used block owned by the task
free (refunding its bytes and counting a free for each), then coalesce.
The source's single marking loop is rendered as a map plus the summed
refunds over the affected blocks. -/
def mimic_task_free_all_memory (st : MemPool) (task_id : Nat) : MemPool :=
  let freed := st.blocks.filter (fun b => b.task_id == task_id && b.free == false)
  let st1 : MemPool :=
    { blocks := st.blocks.map (fun b =>
        if b.task_id = task_id ∧ b.free = false then { b with free := true }
        else b),
      free_bytes := st.free_bytes + (freed.map (·.size)).sum,
      stats := { st.stats with
        total_frees := st.stats.total_frees + freed.length } }
  mem_coalesce_pool st1

/-- The user arena as `mem_init` leaves it: one free block covering the
whole pool, based at the address of `user_heap`. -/
def user_pool_init (base : Nat) : MemPool :=
  { blocks := [⟨base, MIMIC_USER_HEAP, 0, true, false⟩],
    free_bytes := MIMIC_USER_HEAP,
    stats := ⟨0, 0, 0⟩ }

/-- A sequence of user-arena allocations on behalf of one task
(`mimic_umalloc` passes `MIMIC_MAX_MEM_BLOCKS` as the table limit). -/
def alloc_seq (st : MemPool) (t : Nat) : List Nat → MemPool
  | [] => st
  | size :: rest => alloc_seq (mem_alloc_from_pool st size t MIMIC_MAX_MEM_BLOCKS).1 t rest

def sumSizes (l : List MimicMemBlock) : Nat := (l.map (·.size)).sum

def sumFreeSizes (l : List MimicMemBlock) : Nat :=
  ((l.filter (fun b => b.free)).map (·.size)).sum


-- ============================================================================
-- Syscall dispatcher (mimic_kernel.c, mimic_syscall, lines 703-785)
-- ============================================================================

-- Syscall numbers from mimic.h
def MIMIC_SYS_EXIT : Nat := 0
def MIMIC_SYS_YIELD : Nat := 1
def MIMIC_SYS_SLEEP : Nat := 2
def MIMIC_SYS_TIME : Nat := 3
def MIMIC_SYS_MALLOC : Nat := 10
def MIMIC_SYS_FREE : Nat := 11
def MIMIC_SYS_REALLOC : Nat := 12
def MIMIC_SYS_OPEN : Nat := 20
def MIMIC_SYS_CLOSE : Nat := 21
def MIMIC_SYS_READ : Nat := 22
def MIMIC_SYS_WRITE : Nat := 23
def MIMIC_SYS_SEEK : Nat := 24
def MIMIC_SYS_PUTCHAR : Nat := 30
def MIMIC_SYS_GETCHAR : Nat := 31
def MIMIC_SYS_PUTS : Nat := 32
def MIMIC_SYS_GPIO_INIT : Nat := 40
def MIMIC_SYS_GPIO_DIR : Nat := 41
def MIMIC_SYS_GPIO_PUT : Nat := 42
def MIMIC_SYS_GPIO_GET : Nat := 43
def MIMIC_SYS_GPIO_PULL : Nat := 44

/-- The action each case of the `mimic_syscall` switch dispatches into
(the handlers themselves are kernel or hardware calls; the dispatch
decision is what the claims are about).  `sysNosys` is the `default:`
branch returning `MIMIC_ERR_NOSYS`. -/
inductive SyscallAction where
  | sysExit (task_id : Nat)
  | sysYield
  | sysSleep (ms : Nat)
  | sysTime
  | sysMalloc (task_id size : Nat)
  | sysFree (task_id ptr : Nat)
  | sysPutchar (c : Nat)
  | sysGetchar
  | sysPuts (sptr : Nat)
  | sysGpioInit (pin : Nat)
  | sysGpioDir (pin val : Nat)
  | sysGpioPut (pin val : Nat)
  | sysGpioGet (pin : Nat)
  | sysGpioPull (pin mode : Nat)
  | sysOpen (path mode : Nat)
  | sysClose (fd : Nat)
  | sysRead (fd buf n : Nat)
  | sysWrite (fd buf n : Nat)
  | sysSeek (fd off whence : Nat)
  | sysNosys
deriving DecidableEq, Repr

/-- The `switch (num)` of `mimic_syscall`, rendered as the equivalent
chain of equality tests; `task_id` is `kernel.current_task`, `a0..a3` the
argument words (`a3` is accepted but used by no handler, as in the
source). -/
def mimic_syscall_action (num task_id a0 a1 a2 _a3 : Nat) : SyscallAction :=
  if num = MIMIC_SYS_EXIT then .sysExit task_id
  else if num = MIMIC_SYS_YIELD then .sysYield
  else if num = MIMIC_SYS_SLEEP then .sysSleep a0
  else if num = MIMIC_SYS_TIME then .sysTime
  else if num = MIMIC_SYS_MALLOC then .sysMalloc task_id a0
  else if num = MIMIC_SYS_FREE then .sysFree task_id a0
  else if num = MIMIC_SYS_PUTCHAR then .sysPutchar a0
  else if num = MIMIC_SYS_GETCHAR then .sysGetchar
  else if num = MIMIC_SYS_PUTS then .sysPuts a0
  else if num = MIMIC_SYS_GPIO_INIT then .sysGpioInit a0
  else if num = MIMIC_SYS_GPIO_DIR then .sysGpioDir a0 a1
  else if num = MIMIC_SYS_GPIO_PUT then .sysGpioPut a0 a1
  else if num = MIMIC_SYS_GPIO_GET then .sysGpioGet a0
  else if num = MIMIC_SYS_GPIO_PULL then .sysGpioPull a0 a1
  else if num = MIMIC_SYS_OPEN then .sysOpen a0 a1
  else if num = MIMIC_SYS_CLOSE then .sysClose a0
  else if num = MIMIC_SYS_READ then .sysRead a0 a1 a2
  else if num = MIMIC_SYS_WRITE then .sysWrite a0 a1 a2
  else if num = MIMIC_SYS_SEEK then .sysSeek a0 a1 a2
  else .sysNosys

-- ============================================================================
-- FAT32 close path (mimic_fat32.c, fat32_flush_cache lines 363-370,
-- mimic_fclose lines 692-699)
-- ============================================================================

/-- The volume's single-sector cache. -/
structure FatCache where
  cached_sector : Nat
  sector_buf : List Nat
  cache_dirty : Bool
deriving DecidableEq, Repr

/-- The fields of a file handle (`MimicFile` from `mimic_fat32.h`); the
source's `open` flag is rendered `is_open` (Lean keyword). -/
structure MimicFileHandle where
  is_open : Bool
  mode : Nat
  dir_cluster : Nat
  dir_entry_idx : Nat
  first_cluster : Nat
  current_cluster : Nat
  cluster_offset : Nat
  file_size : Nat
  position : Nat
deriving DecidableEq, Repr

def fileDefault : MimicFileHandle := ⟨false, 0, 0, 0, 0, 0, 0, 0, 0⟩

def MIMIC_MAX_FILES : Nat := 8

/-- `fat32_flush_cache`: write the cached sector back to the block device
if dirty (device writes modelled as succeeding). -/
def fat32_flush_cache (c : FatCache) (disk : Nat → List Nat) :
    FatCache × (Nat → List Nat) :=
  if c.cache_dirty then
    ({ c with cache_dirty := false },
     fun s => if s = c.cached_sector then c.sector_buf else disk s)
  else (c, disk)

/-- `mimic_fclose`: validate the descriptor (the source's `fd < 0` branch
cannot fire for a `Nat` descriptor), flush the cache, clear the open flag.
Nothing else: the handle's `dir_cluster` / `dir_entry_idx` /
`file_size` / `first_cluster` fields are never read. -/
def mimic_fclose (files : List MimicFileHandle) (c : FatCache)
    (disk : Nat → List Nat) (fd : Nat) :
    Int × List MimicFileHandle × FatCache × (Nat → List Nat) :=
  if fd ≥ MIMIC_MAX_FILES then (MIMIC_ERR_INVAL, files, c, disk)
  else if (files.getD fd fileDefault).is_open = false then
    (MIMIC_ERR_INVAL, files, c, disk)
  else
    let fl := fat32_flush_cache c disk
    (MIMIC_OK,
     files.set fd { files.getD fd fileDefault with is_open := false },
     fl.1, fl.2)

-- ============================================================================
-- Loader relocation processing (mimic_kernel.c, mimic_load_binary,
-- lines 529-613)
-- ============================================================================

/-- A relocation record (`MimiReloc` from `mimic.h`); the `section` field
is rendered `sect` (Lean keyword). -/
structure MimiReloc where
  offset : Nat
  sect : Nat
  type : Nat
  symbol_idx : Nat
deriving DecidableEq, Repr

/-- A symbol record (`MimiSymbol` from `mimic.h`); the 16-byte name is a
string, the `section` field is rendered `sect`. -/
structure MimiSymbol where
  name : String
  value : Nat
  sect : Nat
  type : Nat
deriving DecidableEq, Repr

def symDefault : MimiSymbol := ⟨"", 0, 0, 0⟩

/-- The section layout the loader computed for the task: the load base and
the section start offsets within the task block. -/
structure TaskMemLayout where
  base : Nat
  text_start : Nat
  rodata_start : Nat
  data_start : Nat
  bss_start : Nat
deriving DecidableEq, Repr

-- Byte-addressed little-endian memory stores
def mem_write8 (m : List Nat) (a v : Nat) : List Nat := m.set a (v % 256)

def mem_write16 (m : List Nat) (a v : Nat) : List Nat :=
  mem_write8 (mem_write8 m a v) (a + 1) (v >>> 8)

def mem_write32 (m : List Nat) (a v : Nat) : List Nat :=
  mem_write16 (mem_write16 m a v) (a + 2) (v >>> 16)

/-- The symbol-value switch of the relocation loop: section-relative
symbols get `base + section_start + value` (32-bit), anything else keeps
its raw value (the external/syscall case). -/
def mimic_symbol_runtime_value (lay : TaskMemLayout) (sym : MimiSymbol) : Nat :=
  if sym.sect = MIMI_SECT_TEXT then
    (lay.base + lay.text_start + sym.value) % 2 ^ 32
  else if sym.sect = MIMI_SECT_RODATA then
    (lay.base + lay.rodata_start + sym.value) % 2 ^ 32
  else if sym.sect = MIMI_SECT_DATA then
    (lay.base + lay.data_start + sym.value) % 2 ^ 32
  else if sym.sect = MIMI_SECT_BSS then
    (lay.base + lay.bss_start + sym.value) % 2 ^ 32
  else sym.value

/-- The patch address the loader computes for a relocation whose section
is TEXT, RODATA or DATA. -/
def mimic_reloc_patch_addr (lay : TaskMemLayout) (r : MimiReloc) : Nat :=
  (if r.sect = MIMI_SECT_TEXT then lay.base + lay.text_start + r.offset
   else if r.sect = MIMI_SECT_RODATA then lay.base + lay.rodata_start + r.offset
   else lay.base + lay.data_start + r.offset) % 2 ^ 32

/-- The apply-by-type switch: ABS32 stores the symbol value, REL32 stores
`sym_value - patch_addr - 4` (32-bit two's complement), THUMB_CALL writes
the two BL halfwords; other types (THUMB_BRANCH, DATA_PTR) have no case
and change nothing. -/
def mimic_apply_reloc_at (mem : List Nat) (patch_addr sym_value rtype : Nat) :
    List Nat :=
  if rtype = MIMI_RELOC_ABS32 then mem_write32 mem patch_addr sym_value
  else if rtype = MIMI_RELOC_REL32 then
    mem_write32 mem patch_addr (toBits32 ((sym_value : Int) - patch_addr - 4))
  else if rtype = MIMI_RELOC_THUMB_CALL then
    mem_write16
      (mem_write16 mem patch_addr (mimic_thumb_call_halfwords sym_value patch_addr).1)
      (patch_addr + 2) (mimic_thumb_call_halfwords sym_value patch_addr).2
  else mem

/-- One iteration of the relocation loop: relocations against an unknown
section hit the `default: continue` and are skipped; the symbol value is
taken from the table only when `symbol_idx < symbol_count` and a table was
loaded, and stays 0 otherwise. -/
def mimic_apply_reloc (lay : TaskMemLayout) (symtab : Option (List MimiSymbol))
    (symbol_count : Nat) (mem : List Nat) (r : MimiReloc) : List Nat :=
  if r.sect = MIMI_SECT_TEXT ∨ r.sect = MIMI_SECT_RODATA ∨
      r.sect = MIMI_SECT_DATA then
    mimic_apply_reloc_at mem (mimic_reloc_patch_addr lay r)
      (match symtab with
       | some tab =>
         if r.symbol_idx < symbol_count then
           mimic_symbol_runtime_value lay (tab.getD r.symbol_idx symDefault)
         else 0
       | none => 0)
      r.type
  else mem

/-- The whole relocation loop over the already-read records (the loop's
only error exits are short file reads, which concern the file length, not
the record contents). -/
def mimic_apply_relocs (lay : TaskMemLayout) (symtab : Option (List MimiSymbol))
    (symbol_count : Nat) (mem : List Nat) (relocs : List MimiReloc) : List Nat :=
  relocs.foldl (mimic_apply_reloc lay symtab symbol_count) mem

-- ============================================================================
-- Code generator and linker (mimic_codegen.c, mimic_cc_codegen lines
-- 532-636; mimic_linker.c, mimic_cc_link lines 327-431)
-- ============================================================================

-- Thumb encoders used by the codegen stub (mimic_codegen.c lines 60-171);
-- REG_LR = 14, REG_PC = 15.
def thumb_mov_imm (rd imm8 : Nat) : Nat :=
  0x2000 ||| ((rd &&& 7) <<< 8) ||| (imm8 &&& 0xFF)

def thumb_push (regmask : Nat) : Nat :=
  0xB400 ||| ((if regmask &&& (1 <<< 14) ≠ 0 then 1 else 0) <<< 8) |||
    (regmask &&& 0xFF)

def thumb_pop (regmask : Nat) : Nat :=
  0xBC00 ||| ((if regmask &&& (1 <<< 15) ≠ 0 then 1 else 0) <<< 8) |||
    (regmask &&& 0xFF)

/-- `cg_emit16`: a halfword appended to the code buffer as two
little-endian bytes. -/
def cg_emit16 (instr : Nat) : List Nat :=
  [instr &&& 0xFF, (instr >>> 8) &&& 0xFF]

/-- The object file as written by pass 4 (header counts are the list
lengths). -/
structure ObjectFile where
  text : List Nat
  data : List Nat
  relocs : List MimiReloc
  symbols : List MimiSymbol
deriving DecidableEq, Repr

/-- The object `mimic_cc_codegen` writes.  The codegen is a stub: it
ignores the IR input entirely and emits one fixed function — prologue
`PUSH (r4-r7, lr)` (locals size 0, so no SUB SP), `MOV r0, #42`, epilogue
`POP (r4-r7, pc)` — with no data, no relocations and no symbols
(`cg.sym_count` is never incremented, so no `main` symbol is recorded). -/
def mimic_cc_codegen_object : ObjectFile :=
  { text := cg_emit16 (thumb_push ((1 <<< 14) ||| 0xF0)) ++
      cg_emit16 (thumb_mov_imm 0 42) ++
      cg_emit16 (thumb_pop ((1 <<< 15) ||| 0xF0)),
    data := [],
    relocs := [],
    symbols := [] }

/-- The linker's working state (`LinkerState` from `mimic_linker.c`). -/
structure LinkerState where
  text : List Nat
  rodata : List Nat
  data : List Nat
  bss_size : Nat
  relocs : List MimiReloc
  symbols : List MimiSymbol
  entry_offset : Nat
  has_entry : Bool
  error_count : Nat
deriving DecidableEq, Repr

/-- `linker_add_symbol`: merge by name — a GLOBAL resolves an existing
EXTERN, GLOBAL against GLOBAL is a duplicate-definition error, anything
else against an existing entry is kept as is; a new name is appended while
the 256-entry table has room. -/
def linker_add_symbol (lnk : LinkerState) (sym : MimiSymbol) : LinkerState :=
  match lnk.symbols.findIdx? (fun s => s.name == sym.name) with
  | some i =>
    if sym.type = MIMI_SYM_GLOBAL ∧
        (lnk.symbols.getD i symDefault).type = MIMI_SYM_EXTERN then
      { lnk with symbols := lnk.symbols.set i sym }
    else if sym.type = MIMI_SYM_GLOBAL ∧
        (lnk.symbols.getD i symDefault).type = MIMI_SYM_GLOBAL then
      { lnk with error_count := lnk.error_count + 1 }
    else lnk
  | none =>
    if 256 ≤ lnk.symbols.length then lnk
    else { lnk with symbols := lnk.symbols ++ [sym] }

/-- The relocation adjustment of `linker_load_object`: the switch has
cases for TEXT and DATA only (no RODATA case in the source). -/
def linker_adjust_reloc (text_offset data_offset : Nat) (r : MimiReloc) :
    MimiReloc :=
  if r.sect = MIMI_SECT_TEXT then
    { r with offset := (r.offset + text_offset) % 2 ^ 32 }
  else if r.sect = MIMI_SECT_DATA then
    { r with offset := (r.offset + data_offset) % 2 ^ 32 }
  else r

/-- The symbol-value adjustment of `linker_load_object` (again TEXT and
DATA cases only). -/
def linker_adjust_symbol (text_offset data_offset : Nat) (sym : MimiSymbol) :
    MimiSymbol :=
  if sym.sect = MIMI_SECT_TEXT then
    { sym with value := (sym.value + text_offset) % 2 ^ 32 }
  else if sym.sect = MIMI_SECT_DATA then
    { sym with value := (sym.value + data_offset) % 2 ^ 32 }
  else sym

/-- `linker_load_object` on an in-memory object: append the sections
(64 KB text / 16 KB data capacity, exceeded → NOMEM), adjust and append
the relocations while the 512-entry table has room (silently dropped
beyond it), adjust the symbols, note a GLOBAL `main` as the entry, and
merge each symbol into the table. -/
def linker_load_object (lnk : LinkerState) (obj : ObjectFile) :
    Except Int LinkerState :=
  let text_offset := lnk.text.length
  let data_offset := lnk.data.length
  if obj.text.length ≠ 0 ∧ 64 * 1024 < lnk.text.length + obj.text.length then
    .error MIMIC_ERR_NOMEM
  else if obj.data.length ≠ 0 ∧
      16 * 1024 < lnk.data.length + obj.data.length then
    .error MIMIC_ERR_NOMEM
  else
    let lnk1 := { lnk with text := lnk.text ++ obj.text,
                           data := lnk.data ++ obj.data }
    let lnk2 := obj.relocs.foldl (fun acc r =>
      if acc.relocs.length < 512 then
        { acc with relocs :=
            acc.relocs ++ [linker_adjust_reloc text_offset data_offset r] }
      else acc) lnk1
    .ok (obj.symbols.foldl (fun acc sym =>
      let sym2 := linker_adjust_symbol text_offset data_offset sym
      let acc2 :=
        if sym2.name = "main" ∧ sym2.type = MIMI_SYM_GLOBAL then
          { acc with entry_offset := sym2.value, has_entry := true }
        else acc
      linker_add_symbol acc2 sym2) lnk2)

/-- `linker_process_relocations`: count out-of-range symbol references and
unresolved externals; any error yields NOENT. -/
def linker_process_relocations (lnk : LinkerState) : Int × LinkerState :=
  let lnk2 := lnk.relocs.foldl (fun acc r =>
    if lnk.symbols.length ≤ r.symbol_idx then
      { acc with error_count := acc.error_count + 1 }
    else
      if (lnk.symbols.getD r.symbol_idx symDefault).type = MIMI_SYM_EXTERN ∧
          (lnk.symbols.getD r.symbol_idx symDefault).sect = MIMI_SECT_NULL then
        if (lnk.symbols.getD r.symbol_idx symDefault).type ≠ MIMI_SYM_SYSCALL
        then { acc with error_count := acc.error_count + 1 }
        else acc
      else acc) lnk
  (if 0 < lnk2.error_count then MIMIC_ERR_NOENT else MIMIC_OK, lnk2)

/-- The `.mimi` image `linker_write_binary` emits: the header built from
the linker state (defaults `stack_request = 4096`, `heap_request = 8192`,
RP2040 architecture), then the sections and tables. -/
structure MimiBinary where
  header : MimiHeader
  text : List Nat
  rodata : List Nat
  data : List Nat
  relocs : List MimiReloc
  symbols : List MimiSymbol
deriving DecidableEq, Repr

def linker_output_header (lnk : LinkerState) (outname : List Nat) : MimiHeader where
  magic := MIMI_MAGIC
  version := MIMI_VERSION
  flags := 0
  arch := MIMI_ARCH_CORTEX_M0P
  entry_offset := lnk.entry_offset
  text_size := lnk.text.length
  rodata_size := lnk.rodata.length
  data_size := lnk.data.length
  bss_size := lnk.bss_size
  reloc_count := lnk.relocs.length
  symbol_count := lnk.symbols.length
  stack_request := 4096
  heap_request := 8192
  name := outname

def linker_write_binary (lnk : LinkerState) (outname : List Nat) : MimiBinary where
  header := linker_output_header lnk outname
  text := lnk.text
  rodata := lnk.rodata
  data := lnk.data
  relocs := lnk.relocs
  symbols := lnk.symbols

/-- `mimic_cc_link`: load every object, fail with NOENT when no GLOBAL
`main` was seen, run the relocation check, then write the binary. -/
def mimic_cc_link (objs : List ObjectFile) (outname : List Nat) :
    Except Int MimiBinary := do
  let lnk ← objs.foldlM linker_load_object ⟨[], [], [], 0, [], [], 0, false, 0⟩
  if lnk.has_entry = false then
    .error MIMIC_ERR_NOENT
  else
    let pr := linker_process_relocations lnk
    if pr.1 ≠ MIMIC_OK ∧ 0 < pr.2.error_count then .error pr.1
    else .ok (linker_write_binary pr.2 outname)

/-- Passes 4 and 5 of `mimic_cc_compile` for any source file: pass 4
ignores its input (the stub above), so the back end's output is fully
determined — the object is linked alone into the output binary. -/
def mimic_cc_compile_backend (outname : List Nat) : Except Int MimiBinary :=
  mimic_cc_link [mimic_cc_codegen_object] outname

-- ============================================================================
-- Theorems
-- ============================================================================

-- Scheduler helper lemmas -----------------------------------------------------

theorem wake_step_priority (now_ms i : Nat) (t : MimicTCB) :
    (wake_step now_ms i t).priority = t.priority := by
  unfold wake_step; split <;> rfl

theorem wake_step_state_of_ready (now_ms i : Nat) (t : MimicTCB)
    (h : t.state = .ready) : (wake_step now_ms i t).state = .ready := by
  unfold wake_step; split <;> simp [h]

theorem wake_step_state_ne_running (now_ms i : Nat) (t : MimicTCB)
    (h : t.state ≠ .running) : (wake_step now_ms i t).state ≠ .running := by
  unfold wake_step; split <;> simp [h]

theorem wake_map_getD (now_ms : Nat) (l : List MimicTCB) (j : Nat)
    (h : j < l.length) :
    (l.enum.map (fun p => wake_step now_ms p.1 p.2)).getD j tcbDefault =
      wake_step now_ms j (l.getD j tcbDefault) := by
  have hlen : j < (l.enum.map (fun p => wake_step now_ms p.1 p.2)).length := by
    simpa using h
  rw [List.getD_eq_getElem _ _ hlen, List.getD_eq_getElem _ _ h]
  simp

theorem sched_pick_foldl_fst_le (ts : List MimicTCB) (l : List Nat)
    (acc : Nat × Nat) : (l.foldl (sched_pick_step ts) acc).1 ≤ acc.1 := by
  induction l generalizing acc with
  | nil => exact le_rfl
  | cons i rest ih =>
    refine le_trans (ih _) ?_
    unfold sched_pick_step
    split_ifs with h
    · exact le_of_lt h.2.2
    · exact le_rfl

theorem sched_pick_foldl_le_of_mem (ts : List MimicTCB) (l : List Nat)
    (acc : Nat × Nat) (a : Nat) (ha : a ∈ l) (h1 : 1 ≤ a)
    (hready : (ts.getD a tcbDefault).state = .ready) :
    (l.foldl (sched_pick_step ts) acc).1 ≤ (ts.getD a tcbDefault).priority := by
  induction l generalizing acc with
  | nil => cases ha
  | cons i rest ih =>
    rcases List.mem_cons.mp ha with rfl | hmem
    · refine le_trans (sched_pick_foldl_fst_le ts rest _) ?_
      unfold sched_pick_step
      split_ifs with h
      · exact le_rfl
      · push_neg at h
        exact h h1 hready
    · exact ih _ hmem

theorem sched_pick_foldl_snd_prio (ts : List MimicTCB) (l : List Nat)
    (acc : Nat × Nat) (b : Nat)
    (hacc : acc.2 = b → acc.1 = (ts.getD b tcbDefault).priority) :
    (l.foldl (sched_pick_step ts) acc).2 = b →
      (l.foldl (sched_pick_step ts) acc).1 = (ts.getD b tcbDefault).priority := by
  induction l generalizing acc with
  | nil => exact hacc
  | cons i rest ih =>
    apply ih
    unfold sched_pick_step
    split_ifs with h
    · intro h2
      simp only at h2
      subst h2
      rfl
    · exact hacc

theorem getD_set_ne {α : Type} (l : List α) (d : α) (i j : Nat) (x : α)
    (hij : i ≠ j) : (l.set i x).getD j d = l.getD j d := by
  by_cases hj : j < l.length
  · rw [List.getD_eq_getElem _ _ (by simpa using hj), List.getD_eq_getElem _ _ hj]
    exact List.getElem_set_ne hij _
  · rw [List.getD_eq_default, List.getD_eq_default] <;> simp_all

theorem getD_set_self {α : Type} (l : List α) (d : α) (i : Nat) (x : α)
    (hi : i < l.length) : (l.set i x).getD i d = x := by
  rw [List.getD_eq_getElem _ _ (by simpa using hi)]
  exact List.getElem_set_self _

theorem getD_append_left {α : Type} (l1 l2 : List α) (d : α) (i : Nat)
    (hi : i < l1.length) : (l1 ++ l2).getD i d = l1.getD i d := by
  rw [List.getD_eq_getElem _ _ (by simp; omega), List.getD_eq_getElem _ _ hi]
  exact List.getElem_append_left _

theorem set_append_left {α : Type} (l1 l2 : List α) (i : Nat) (x : α)
    (hi : i < l1.length) : (l1 ++ l2).set i x = l1.set i x ++ l2 := by
  induction l1 generalizing i with
  | nil => cases hi
  | cons a rest ih =>
    cases i with
    | zero => rfl
    | succ j =>
      simp only [List.cons_append, List.set_cons_succ]
      rw [ih j (by simpa using hi)]

-- Best-fit search lemmas ------------------------------------------------------

theorem best_fit_isSome_of_some (l : List MimicMemBlock) (idx sz : Nat)
    (q : Nat × Nat) : (best_fit_search l idx sz (some q)).isSome = true := by
  induction l generalizing idx q with
  | nil => rfl
  | cons b rest ih =>
    simp only [best_fit_search]
    split_ifs with h1 h2
    · rfl
    · exact ih _ _
    · exact ih _ _

theorem best_fit_some_spec (l : List MimicMemBlock) (idx sz : Nat)
    (best : Option (Nat × Nat)) (i s : Nat)
    (h : best_fit_search l idx sz best = some (i, s)) :
    some (i, s) = best ∨
      ∃ k, k < l.length ∧ i = idx + k ∧
        (l.getD k memBlockDefault).free = true ∧
        sz ≤ (l.getD k memBlockDefault).size ∧
        s = (l.getD k memBlockDefault).size := by
  induction l generalizing idx best with
  | nil => exact Or.inl h.symm
  | cons b rest ih =>
    simp only [best_fit_search] at h
    split_ifs at h with h1 h2
    · right
      simp only [Option.some.injEq, Prod.mk.injEq] at h
      exact ⟨0, by simp, by omega, h1.1, by simp [← h.2, h1.2.1], h.2.symm⟩
    · rcases ih _ _ h with heq | ⟨k, hk, hik, hfree, hsz, hs⟩
      · right
        simp only [Option.some.injEq, Prod.mk.injEq] at heq
        exact ⟨0, by simp, by omega, h1.1, by simp [heq.2, h1.2.1], heq.2⟩
      · right
        exact ⟨k + 1, by simpa using hk, by omega, hfree, hsz, hs⟩
    · rcases ih _ _ h with heq | ⟨k, hk, hik, hfree, hsz, hs⟩
      · exact Or.inl heq
      · right
        exact ⟨k + 1, by simpa using hk, by omega, hfree, hsz, hs⟩

theorem best_fit_le_best (l : List MimicMemBlock) (idx sz : Nat)
    (q : Nat × Nat) (i s : Nat)
    (h : best_fit_search l idx sz (some q) = some (i, s)) : s ≤ q.2 := by
  induction l generalizing idx q with
  | nil =>
    simp only [best_fit_search, Option.some.injEq] at h
    rw [h]
  | cons b rest ih =>
    simp only [best_fit_search] at h
    split_ifs at h with h1 h2
    · simp only [Option.some.injEq, Prod.mk.injEq] at h
      rw [← h.2]
      exact le_of_lt h1.2.2
    · exact le_trans (ih _ _ h) (le_of_lt h1.2.2)
    · exact ih _ _ h

theorem best_fit_min (l : List MimicMemBlock) (idx sz : Nat)
    (best : Option (Nat × Nat)) (i s : Nat)
    (h : best_fit_search l idx sz best = some (i, s)) :
    ∀ b ∈ l, b.free = true → sz ≤ b.size → b.size < 0xFFFFFFFF →
      s ≤ b.size := by
  induction l generalizing idx best with
  | nil => intro b hb; cases hb
  | cons hd rest ih =>
    intro b hb hbfree hbsz hbbound
    simp only [best_fit_search] at h
    rcases List.mem_cons.mp hb with rfl | hmem
    · -- the block under scrutiny is the head
      split_ifs at h with h1 h2
      · simp only [Option.some.injEq, Prod.mk.injEq] at h
        omega
      · exact best_fit_le_best rest (idx + 1) sz _ i s h
      · -- head not taken: its size is at least the current best size
        rcases hbest : best with _ | q
        · rw [hbest] at h h1
          simp only [hbfree, hbsz, true_and] at h1
          omega
        · rw [hbest] at h h1
          have hle : s ≤ q.2 := best_fit_le_best rest (idx + 1) sz _ i s h
          simp only [hbfree, hbsz, true_and] at h1
          omega
    · split_ifs at h with h1 h2
      · simp only [Option.some.injEq, Prod.mk.injEq] at h
        omega
      · exact ih _ _ h b hmem hbfree hbsz hbbound
      · exact ih _ _ h b hmem hbfree hbsz hbbound

theorem best_fit_none_iff (l : List MimicMemBlock) (idx sz : Nat) :
    best_fit_search l idx sz none = none ↔
      ∀ b ∈ l, ¬(b.free = true ∧ sz ≤ b.size ∧ b.size < 0xFFFFFFFF) := by
  induction l generalizing idx with
  | nil => simp [best_fit_search]
  | cons b rest ih =>
    simp only [best_fit_search]
    split_ifs with h1 h2
    · constructor
      · intro hc; cases hc
      · intro hall
        exact absurd h1 (by simpa using hall b (List.mem_cons_self b rest))
    · have hs := best_fit_isSome_of_some rest (idx + 1) sz (idx, b.size)
      constructor
      · intro hc
        rw [hc] at hs
        cases hs
      · intro hall
        exact absurd h1 (by simpa using hall b (List.mem_cons_self b rest))
    · rw [ih (idx + 1)]
      constructor
      · intro hall b2 hb2
        rcases List.mem_cons.mp hb2 with rfl | hmem
        · simpa using h1
        · exact hall b2 hmem
      · intro hall b2 hb2
        exact hall b2 (List.mem_cons_of_mem b hb2)

theorem find_used_block_none_iff (l : List MimicMemBlock) (idx p : Nat) :
    find_used_block l idx p = none ↔
      ∀ b ∈ l, ¬(b.addr = p ∧ b.free = false) := by
  induction l generalizing idx with
  | nil => simp [find_used_block]
  | cons b rest ih =>
    simp only [find_used_block]
    split_ifs with h1
    · constructor
      · intro hc; cases hc
      · intro hall
        exact absurd h1 (by simpa using hall b (List.mem_cons_self b rest))
    · rw [ih (idx + 1)]
      constructor
      · intro hall b2 hb2
        rcases List.mem_cons.mp hb2 with rfl | hmem
        · simpa using h1
        · exact hall b2 hmem
      · intro hall b2 hb2
        exact hall b2 (List.mem_cons_of_mem b hb2)

theorem find_used_block_some_spec (l : List MimicMemBlock) (idx p i : Nat)
    (h : find_used_block l idx p = some i) :
    ∃ k, k < l.length ∧ i = idx + k ∧
      (l.getD k memBlockDefault).addr = p ∧
      (l.getD k memBlockDefault).free = false := by
  induction l generalizing idx with
  | nil => cases h
  | cons b rest ih =>
    simp only [find_used_block] at h
    split_ifs at h with h1
    · simp only [Option.some.injEq] at h
      exact ⟨0, by simp, by omega, h1.1, h1.2⟩
    · rcases ih _ h with ⟨k, hk, hik, ha, hf⟩
      exact ⟨k + 1, by simpa using hk, by omega, ha, hf⟩


-- Arena invariant lemmas ------------------------------------------------------

theorem sumSizes_cons (b : MimicMemBlock) (l : List MimicMemBlock) :
    sumSizes (b :: l) = b.size + sumSizes l := by
  simp [sumSizes]

theorem sumSizes_append (l1 l2 : List MimicMemBlock) :
    sumSizes (l1 ++ l2) = sumSizes l1 + sumSizes l2 := by
  simp [sumSizes]

theorem sumSizes_set (l : List MimicMemBlock) (i : Nat) (x : MimicMemBlock)
    (hi : i < l.length) :
    sumSizes (l.set i x) + (l.getD i memBlockDefault).size =
      sumSizes l + x.size := by
  induction l generalizing i with
  | nil => cases hi
  | cons b rest ih =>
    cases i with
    | zero => simp [sumSizes]; omega
    | succ j =>
      have hj : j < rest.length := by simpa using hi
      have := ih j hj
      simp only [List.set_cons_succ, sumSizes_cons, List.getD_cons_succ]
      omega

theorem sumSizes_perm (l1 l2 : List MimicMemBlock) (h : l1.Perm l2) :
    sumSizes l1 = sumSizes l2 := by
  unfold sumSizes
  exact (h.map _).sum_eq

/-- One allocation step preserves the total of the block sizes and the
fact that every used block is owned by the allocating task. -/
theorem alloc_preserves_inv (st : MemPool) (size t mb cap : Nat)
    (hs : sumSizes st.blocks = cap)
    (ho : ∀ b ∈ st.blocks, b.free = false → b.task_id = t) :
    sumSizes (mem_alloc_from_pool st size t mb).1.blocks = cap ∧
    ∀ b ∈ (mem_alloc_from_pool st size t mb).1.blocks,
      b.free = false → b.task_id = t := by
  by_cases hsize : size = 0
  · subst hsize
    simpa [mem_alloc_from_pool] using ⟨hs, ho⟩
  rcases hbf : best_fit_search st.blocks 0 (mimic_align_size size) none
    with _ | ⟨i0, s⟩
  · simp only [mem_alloc_from_pool, if_neg hsize, hbf]
    exact ⟨hs, ho⟩
  rcases best_fit_some_spec _ 0 _ none i0 s hbf with hc | ⟨k, hk, hik, hkfree, hksz, hks⟩
  · cases hc
  have hik0 : i0 = k := by omega
  subst hik0
  by_cases hsplit : mimic_align_size size + MIMIC_MIN_BLOCK_SPLIT <
      (st.blocks.getD i0 memBlockDefault).size ∧ st.blocks.length < mb
  · have hblocks : (mem_alloc_from_pool st size t mb).1.blocks =
        st.blocks.set i0
          ⟨(st.blocks.getD i0 memBlockDefault).addr, mimic_align_size size,
            t, false, (st.blocks.getD i0 memBlockDefault).pinned⟩ ++
          [⟨(st.blocks.getD i0 memBlockDefault).addr + mimic_align_size size,
            (st.blocks.getD i0 memBlockDefault).size - mimic_align_size size,
            0, true, false⟩] := by
      simp only [mem_alloc_from_pool, if_neg hsize, hbf, if_pos hsplit]
      rw [getD_append_left _ _ _ _ (by simpa using hk),
        getD_set_self _ _ _ _ hk,
        set_append_left _ _ _ _ (by simpa using hk), List.set_set]
    rw [hblocks]
    constructor
    · have hset : sumSizes (st.blocks.set i0
          ⟨(st.blocks.getD i0 memBlockDefault).addr, mimic_align_size size,
            t, false, (st.blocks.getD i0 memBlockDefault).pinned⟩) +
          (st.blocks.getD i0 memBlockDefault).size =
          sumSizes st.blocks + mimic_align_size size :=
        sumSizes_set st.blocks i0 _ hk
      rw [sumSizes_append, sumSizes_cons]
      show sumSizes _ +
        ((st.blocks.getD i0 memBlockDefault).size - mimic_align_size size +
          sumSizes []) = cap
      have hnil : sumSizes ([] : List MimicMemBlock) = 0 := rfl
      rw [hnil]
      omega
    · intro b hb
      rcases List.mem_append.mp hb with hb1 | hb2
      · rcases List.mem_or_eq_of_mem_set hb1 with hmem | rfl
        · exact ho b hmem
        · intro _; rfl
      · intro hfalse
        simp only [List.mem_singleton] at hb2
        subst hb2
        cases hfalse
  · have hblocks : (mem_alloc_from_pool st size t mb).1.blocks =
        st.blocks.set i0
          ⟨(st.blocks.getD i0 memBlockDefault).addr,
            (st.blocks.getD i0 memBlockDefault).size,
            t, false, (st.blocks.getD i0 memBlockDefault).pinned⟩ := by
      simp only [mem_alloc_from_pool, if_neg hsize, hbf, if_neg hsplit]
    rw [hblocks]
    constructor
    · have hset : sumSizes (st.blocks.set i0
          ⟨(st.blocks.getD i0 memBlockDefault).addr,
            (st.blocks.getD i0 memBlockDefault).size,
            t, false, (st.blocks.getD i0 memBlockDefault).pinned⟩) +
          (st.blocks.getD i0 memBlockDefault).size =
          sumSizes st.blocks + (st.blocks.getD i0 memBlockDefault).size :=
        sumSizes_set st.blocks i0 _ hk
      omega
    · intro b hb
      rcases List.mem_or_eq_of_mem_set hb with hmem | rfl
      · exact ho b hmem
      · intro _; rfl

theorem mark_map_sum (l : List MimicMemBlock) (t : Nat) :
    sumSizes (l.map (fun b =>
      if b.task_id = t ∧ b.free = false then { b with free := true } else b)) =
      sumSizes l := by
  induction l with
  | nil => rfl
  | cons b rest ih =>
    simp only [List.map_cons, sumSizes_cons, ih]
    split_ifs <;> rfl

theorem mark_map_all_free (l : List MimicMemBlock) (t : Nat)
    (ho : ∀ b ∈ l, b.free = false → b.task_id = t) :
    ∀ b ∈ l.map (fun b =>
      if b.task_id = t ∧ b.free = false then { b with free := true } else b),
      b.free = true := by
  intro b hb
  rw [List.mem_map] at hb
  obtain ⟨a, ha, rfl⟩ := hb
  split_ifs with h
  · rfl
  · cases hf : a.free
    · exact absurd ⟨ho a ha hf, hf⟩ h
    · rfl

theorem bubble_pass_perm (l : List MimicMemBlock) : (bubble_pass l).Perm l :=
  match l with
  | [] => by rw [bubble_pass]
  | [x] => by
    rw [bubble_pass]
  | a :: b :: rest => by
    rw [bubble_pass]
    split_ifs with h
    · exact ((bubble_pass_perm (a :: rest)).cons b).trans (List.Perm.swap a b rest)
    · exact (bubble_pass_perm (b :: rest)).cons a
termination_by l.length

theorem bubble_sort_perm (l : List MimicMemBlock) :
    (bubble_sort_by_addr l).Perm l := by
  unfold bubble_sort_by_addr
  generalize List.range l.length = idxs
  induction idxs generalizing l with
  | nil => exact List.Perm.refl _
  | cons i rest ih =>
    simp only [List.foldl_cons]
    exact (ih (bubble_pass l)).trans (bubble_pass_perm l)

theorem coalesce_step_sum (acc : List MimicMemBlock) (b : MimicMemBlock) :
    sumSizes (coalesce_step acc b) = sumSizes acc + b.size := by
  cases acc with
  | nil => simp [coalesce_step, sumSizes]
  | cons prev restRev =>
    simp only [coalesce_step]
    split_ifs with h
    · simp only [sumSizes_cons]; omega
    · simp only [sumSizes_cons]; omega

theorem coalesce_foldl_sum (l acc : List MimicMemBlock) :
    sumSizes (l.foldl coalesce_step acc) = sumSizes acc + sumSizes l := by
  induction l generalizing acc with
  | nil => simp [sumSizes]
  | cons b rest ih =>
    rw [List.foldl_cons, ih, coalesce_step_sum, sumSizes_cons]
    omega

theorem coalesce_step_all_free (acc : List MimicMemBlock) (b : MimicMemBlock)
    (hacc : ∀ x ∈ acc, x.free = true) (hb : b.free = true) :
    ∀ x ∈ coalesce_step acc b, x.free = true := by
  cases acc with
  | nil => simpa [coalesce_step] using hb
  | cons prev restRev =>
    simp only [coalesce_step]
    split_ifs with h
    · intro x hx
      rcases List.mem_cons.mp hx with rfl | hmem
      · exact h.1
      · exact hacc x (List.mem_cons_of_mem _ hmem)
    · intro x hx
      rcases List.mem_cons.mp hx with rfl | hmem
      · exact hb
      · exact hacc x hmem

theorem coalesce_foldl_all_free (l acc : List MimicMemBlock)
    (hacc : ∀ x ∈ acc, x.free = true) (hl : ∀ x ∈ l, x.free = true) :
    ∀ x ∈ l.foldl coalesce_step acc, x.free = true := by
  induction l generalizing acc with
  | nil => exact hacc
  | cons b rest ih =>
    rw [List.foldl_cons]
    exact ih _ (coalesce_step_all_free acc b hacc
        (hl b (List.mem_cons_self b rest)))
      (fun x hx => hl x (List.mem_cons_of_mem b hx))

theorem merge_adjacent_sum (l : List MimicMemBlock) :
    sumSizes (merge_adjacent l) = sumSizes l := by
  unfold merge_adjacent
  have : sumSizes ((l.foldl coalesce_step []).reverse) =
      sumSizes (l.foldl coalesce_step []) := by
    simp [sumSizes, List.sum_reverse]
  rw [this, coalesce_foldl_sum]
  simp [sumSizes]

theorem merge_adjacent_all_free (l : List MimicMemBlock)
    (hl : ∀ x ∈ l, x.free = true) :
    ∀ x ∈ merge_adjacent l, x.free = true := by
  intro x hx
  unfold merge_adjacent at hx
  rw [List.mem_reverse] at hx
  exact coalesce_foldl_all_free l [] (by intro y hy; cases hy) hl x hx

theorem sumFreeSizes_of_all_free (l : List MimicMemBlock)
    (h : ∀ x ∈ l, x.free = true) : sumFreeSizes l = sumSizes l := by
  unfold sumFreeSizes sumSizes
  rw [List.filter_eq_self.mpr h]

/-- C2: applying a `THUMB_CALL` relocation, the loader computes
`offset = symbol_value - patch_addr - 4` and writes exactly the two BL
halfwords of the spec's formula (`J1 = !I1 XOR S`, `J2 = !I2 XOR S`,
`hi = 0xF000 | (S<<10) | imm10`, `lo = 0xD000 | (J1<<13) | (J2<<11) | imm11`);
in particular, for a symbol at text offset 0x200, a call site at text offset
0x100 and load base 0x20000000 the halfwords are `hi = 0xF000`,
`lo = 0xF87E`. -/
theorem thumb_call_matches_spec_formula :
    (∀ sym_value patch_addr : Nat,
      mimic_thumb_call_halfwords sym_value patch_addr =
        spec_bl_halfwords (toBits32 ((sym_value : Int) - patch_addr - 4))) ∧
    mimic_thumb_call_halfwords (0x20000000 + 0x200) (0x20000000 + 0x100) =
      (0xF000, 0xF87E) := by
  constructor
  · intro sym_value patch_addr
    simp only [mimic_thumb_call_halfwords, spec_bl_halfwords]
    generalize toBits32 ((sym_value : Int) - patch_addr - 4) = n
    have e24 := Nat.and_one_is_mod (n >>> 24)
    have e23 := Nat.and_one_is_mod (n >>> 23)
    have e22 := Nat.and_one_is_mod (n >>> 22)
    rcases Nat.mod_two_eq_zero_or_one (n >>> 24) with h24 | h24 <;>
    rcases Nat.mod_two_eq_zero_or_one (n >>> 23) with h23 | h23 <;>
    rcases Nat.mod_two_eq_zero_or_one (n >>> 22) with h22 | h22 <;>
      rw [e24, e23, e22, h24, h23, h22] <;> rfl
  · decide

/-- C4 (amended): a scheduler tick first wakes due sleepers and then picks
the READY task of numerically lowest priority (ties broken by slot order),
so no tick at which task A (priority 2) is in the READY state puts task B
(priority 5) into RUNNING.  (The claim's stronger statement — B never
becomes RUNNING as long as A has not slept, yielded or exited — fails,
because the pick loop does not consider the currently RUNNING task; see the
counterexample.) -/
theorem scheduler_tick_respects_ready_priority (k : SchedKernel)
    (now_ms a b : Nat)
    (hlen : k.tasks.length = MIMIC_MAX_TASKS)
    (ha1 : 1 ≤ a) (ha2 : a < MIMIC_MAX_TASKS)
    (hb1 : 1 ≤ b) (hb2 : b < MIMIC_MAX_TASKS)
    (hA : (k.tasks.getD a tcbDefault).state = .ready)
    (hpa : (k.tasks.getD a tcbDefault).priority = 2)
    (hpb : (k.tasks.getD b tcbDefault).priority = 5)
    (hB : (k.tasks.getD b tcbDefault).state ≠ .running) :
    ((scheduler_tick now_ms k).tasks.getD b tcbDefault).state ≠ .running := by
  have hal : a < k.tasks.length := by omega
  have hbl : b < k.tasks.length := by omega
  simp only [scheduler_tick]
  set ts1 := k.tasks.enum.map (fun p => wake_step now_ms p.1 p.2) with hts1
  have hlen1 : ts1.length = k.tasks.length := by simp [hts1]
  have hA1 : (ts1.getD a tcbDefault).state = .ready := by
    rw [hts1, wake_map_getD now_ms k.tasks a hal]
    exact wake_step_state_of_ready now_ms a _ hA
  have hpa1 : (ts1.getD a tcbDefault).priority = 2 := by
    rw [hts1, wake_map_getD now_ms k.tasks a hal, wake_step_priority]
    exact hpa
  have hpb1 : (ts1.getD b tcbDefault).priority = 5 := by
    rw [hts1, wake_map_getD now_ms k.tasks b hbl, wake_step_priority]
    exact hpb
  have hB1 : (ts1.getD b tcbDefault).state ≠ .running := by
    rw [hts1, wake_map_getD now_ms k.tasks b hbl]
    exact wake_step_state_ne_running now_ms b _ hB
  have hpick : (sched_pick ts1).2 ≠ b := by
    intro he
    have h5 : (sched_pick ts1).1 = (ts1.getD b tcbDefault).priority := by
      refine sched_pick_foldl_snd_prio ts1 (List.range MIMIC_MAX_TASKS)
        (255, 0) b ?_ he
      intro h0
      exact absurd h0.symm (by omega)
    have h2 : (sched_pick ts1).1 ≤ (ts1.getD a tcbDefault).priority :=
      sched_pick_foldl_le_of_mem ts1 (List.range MIMIC_MAX_TASKS) (255, 0) a
        (List.mem_range.mpr ha2) ha1 hA1
    rw [hpa1] at h2
    rw [hpb1] at h5
    omega
  split
  · -- context switch: tasks1[current] becomes READY, tasks1[pick] RUNNING
    rw [getD_set_ne _ _ _ _ _ hpick]
    by_cases hcb : k.current_task = b
    · subst hcb
      rw [getD_set_self _ _ _ _ (by simp [hlen1]; omega)]
      simp
    · rw [getD_set_ne _ _ _ _ _ hcb]
      exact hB1
  · exact hB1

/-- Witness for `scheduler_tick_respects_ready_priority`: concrete kernel
state with idle, A (slot 1, priority 2, READY) and B (slot 2, priority 5,
READY); after one tick B is not RUNNING. -/
theorem scheduler_tick_respects_ready_priority_witness :
    ((scheduler_tick 0
        ⟨[⟨0, .ready, 255, 0⟩, ⟨1, .ready, 2, 0⟩, ⟨2, .ready, 5, 0⟩,
          tcbDefault, tcbDefault, tcbDefault, tcbDefault, tcbDefault],
         0⟩).tasks.getD 2 tcbDefault).state ≠ .running :=
  scheduler_tick_respects_ready_priority _ 0 1 2 (by decide) (by decide)
    (by decide) (by decide) (by decide) (by decide) (by decide) (by decide)
    (by decide)

/-- C4 counterexample: with A (slot 1, priority 2) and B (slot 2,
priority 5) both loaded and READY, the first tick makes A RUNNING, and the
very next tick — although A has neither slept, yielded nor exited — puts B
into RUNNING and demotes A to READY, because the pick loop only considers
READY tasks and ignores the RUNNING one. -/
theorem scheduler_tick_runs_B_despite_A :
    (((scheduler_tick 0
        ⟨[⟨0, .ready, 255, 0⟩, ⟨1, .ready, 2, 0⟩, ⟨2, .ready, 5, 0⟩,
          tcbDefault, tcbDefault, tcbDefault, tcbDefault, tcbDefault],
         0⟩).tasks.getD 1 tcbDefault).state = .running) ∧
    (((scheduler_tick 0 (scheduler_tick 0
        ⟨[⟨0, .ready, 255, 0⟩, ⟨1, .ready, 2, 0⟩, ⟨2, .ready, 5, 0⟩,
          tcbDefault, tcbDefault, tcbDefault, tcbDefault, tcbDefault],
         0⟩)).tasks.getD 2 tcbDefault).state = .running) ∧
    (((scheduler_tick 0 (scheduler_tick 0
        ⟨[⟨0, .ready, 255, 0⟩, ⟨1, .ready, 2, 0⟩, ⟨2, .ready, 5, 0⟩,
          tcbDefault, tcbDefault, tcbDefault, tcbDefault, tcbDefault],
         0⟩)).tasks.getD 1 tcbDefault).state = .ready) := by
  decide

/-- C7: `mimic_ufree` verifies ownership: when the block at address `p` is
owned by another task, pinned, or already free, the call leaves the arena
(blocks, free-byte counter and statistics) unchanged; only a non-free,
unpinned block at `p` whose owner tag is the caller is marked free (with
the byte refund and the `total_frees` count).  The hypothesis `huniq` is
the arena invariant that block addresses are distinct (each address names
at most one block). -/
theorem mimic_ufree_ownership (st : MemPool) (t p : Nat)
    (huniq : ∀ i j, i < st.blocks.length → j < st.blocks.length →
      (st.blocks.getD i memBlockDefault).addr = p →
      (st.blocks.getD j memBlockDefault).addr = p → i = j) :
    ((∀ b ∈ st.blocks, b.addr = p →
        (b.task_id ≠ t ∨ b.pinned = true ∨ b.free = true)) →
      mimic_ufree st t p = st) ∧
    (∀ i, i < st.blocks.length →
      (st.blocks.getD i memBlockDefault).addr = p →
      (st.blocks.getD i memBlockDefault).task_id = t →
      (st.blocks.getD i memBlockDefault).free = false →
      (st.blocks.getD i memBlockDefault).pinned = false →
      p ≠ 0 →
      mimic_ufree st t p =
        { blocks := st.blocks.set i
            { st.blocks.getD i memBlockDefault with free := true },
          free_bytes := st.free_bytes + (st.blocks.getD i memBlockDefault).size,
          stats := { st.stats with
            total_frees := st.stats.total_frees + 1 } }) := by
  constructor
  · intro hall
    unfold mimic_ufree
    split_ifs with hany
    · unfold mem_free_in_pool
      split_ifs with hp0
      · rfl
      · rcases hfind : find_used_block st.blocks 0 p with _ | i
        · simp [hfind]
        · obtain ⟨k, hk, hik, haddr, hfree⟩ :=
            find_used_block_some_spec _ 0 p i hfind
          rw [List.any_eq_true] at hany
          obtain ⟨b0, hb0mem, hb0⟩ := hany
          simp only [Bool.and_eq_true, beq_iff_eq] at hb0
          obtain ⟨j, hj, hb0get⟩ := List.mem_iff_getElem.mp hb0mem
          have hgetDj : st.blocks.getD j memBlockDefault = b0 := by
            rw [List.getD_eq_getElem _ _ hj]; exact hb0get
          have hkj : k = j := huniq k j hk hj haddr (by rw [hgetDj]; exact hb0.1)
          have htask : (st.blocks.getD k memBlockDefault).task_id = t := by
            rw [hkj, hgetDj]; exact hb0.2
          have hmemk : st.blocks.getD k memBlockDefault ∈ st.blocks := by
            rw [List.getD_eq_getElem _ _ hk]
            exact List.getElem_mem _
          have hpin : (st.blocks.getD k memBlockDefault).pinned = true := by
            rcases hall _ hmemk haddr with hc | hc | hc
            · exact absurd htask hc
            · exact hc
            · rw [hc] at hfree; cases hfree
          simp only [hfind]
          have hik0 : i = k := by omega
          rw [hik0, if_pos hpin]
    · rfl
  · intro i hi haddr htask hfree hpin hp0
    have hmem : st.blocks.getD i memBlockDefault ∈ st.blocks := by
      rw [List.getD_eq_getElem _ _ hi]
      exact List.getElem_mem _
    have hany : st.blocks.any (fun b => b.addr == p && b.task_id == t) = true := by
      rw [List.any_eq_true]
      refine ⟨_, hmem, ?_⟩
      simp only [Bool.and_eq_true, beq_iff_eq]
      exact ⟨haddr, htask⟩
    unfold mimic_ufree
    rw [if_pos hany]
    unfold mem_free_in_pool
    rw [if_neg hp0]
    rcases hfind : find_used_block st.blocks 0 p with _ | j
    · rw [find_used_block_none_iff] at hfind
      exact absurd ⟨haddr, hfree⟩ (hfind _ hmem)
    · obtain ⟨k, hk, hjk, haddr2, hfree2⟩ :=
        find_used_block_some_spec _ 0 p j hfind
      have hki : k = i := huniq k i hk hi haddr2 haddr
      have hji : j = i := by omega
      simp only [hfind, hji]
      rw [if_neg (by rw [hpin]; simp)]

/-- Witness for `mimic_ufree_ownership`: a one-block arena where the block
at address 1024 is owned by task 3; `mimic_ufree` by task 3 marks it free,
refunds the 96 bytes and counts the free. -/
theorem mimic_ufree_ownership_witness :
    mimic_ufree ⟨[⟨1024, 96, 3, false, false⟩], 0, ⟨1, 0, 0⟩⟩ 3 1024 =
      ⟨[⟨1024, 96, 3, true, false⟩], 96, ⟨1, 1, 0⟩⟩ :=
  (mimic_ufree_ownership ⟨[⟨1024, 96, 3, false, false⟩], 0, ⟨1, 0, 0⟩⟩ 3 1024
    (by intro i j hi hj _ _; simp at hi hj; omega)).2 0 (by decide) (by decide)
    (by decide) (by decide) (by decide) (by decide)

/-- C5: starting from the freshly initialised user arena (one free block
covering the pool — the "no other task is alive" precondition), after any
sequence of user-arena allocations owned by task `t`,
`mimic_task_free_all_memory t` (which marks every used block of `t` free
and then coalesces) leaves the arena with the free blocks' sizes summing
to the pool capacity `MIMIC_USER_HEAP`. -/
theorem task_free_all_restores_pool (base t : Nat) (sizes : List Nat) :
    sumFreeSizes (mimic_task_free_all_memory
      (alloc_seq (user_pool_init base) t sizes) t).blocks = MIMIC_USER_HEAP := by
  suffices h : ∀ (szs : List Nat) (st : MemPool),
      sumSizes st.blocks = MIMIC_USER_HEAP →
      (∀ b ∈ st.blocks, b.free = false → b.task_id = t) →
      sumSizes (alloc_seq st t szs).blocks = MIMIC_USER_HEAP ∧
      ∀ b ∈ (alloc_seq st t szs).blocks, b.free = false → b.task_id = t by
    obtain ⟨hs, ho⟩ := h sizes (user_pool_init base)
      (by simp [user_pool_init, sumSizes])
      (by
        intro b hb hf
        simp only [user_pool_init, List.mem_singleton] at hb
        subst hb
        cases hf)
    have hblocks : (mimic_task_free_all_memory
        (alloc_seq (user_pool_init base) t sizes) t).blocks =
        merge_adjacent (bubble_sort_by_addr
          ((alloc_seq (user_pool_init base) t sizes).blocks.map
            (fun b => if b.task_id = t ∧ b.free = false
              then { b with free := true } else b))) := rfl
    rw [hblocks]
    have hallfree := mark_map_all_free
      (alloc_seq (user_pool_init base) t sizes).blocks t ho
    have hsortfree : ∀ x ∈ bubble_sort_by_addr
        ((alloc_seq (user_pool_init base) t sizes).blocks.map
          (fun b => if b.task_id = t ∧ b.free = false
            then { b with free := true } else b)), x.free = true := by
      intro x hx
      exact hallfree x ((bubble_sort_perm _).mem_iff.mp hx)
    rw [sumFreeSizes_of_all_free _ (merge_adjacent_all_free _ hsortfree),
      merge_adjacent_sum, sumSizes_perm _ _ (bubble_sort_perm _), mark_map_sum]
    exact hs
  intro szs
  induction szs with
  | nil =>
    intro st hs ho
    exact ⟨hs, ho⟩
  | cons sz rest ih =>
    intro st hs ho
    have hstep := alloc_preserves_inv st sz t MIMIC_MAX_MEM_BLOCKS
      MIMIC_USER_HEAP hs ho
    rw [alloc_seq]
    exact ih _ hstep.1 hstep.2

/-- C6 (amended): `mem_alloc_from_pool` returns null for size 0; otherwise
it rounds the request up to a multiple of 32 bytes and picks a free block
of smallest size at least the rounded request, returning its base address;
it splits off the tail as a new free block exactly when the chosen block
exceeds the request by MORE than the 64-byte split threshold (strictly,
`block.size > request + 64`, not `≥`) and the block table is not full;
when no block fits it returns null and increments `failed_allocs`; and
`free(null)` is a no-op.  The bound hypothesis is the arena invariant that
block sizes are below the `0xFFFFFFFF` sentinel the scan starts from. -/
theorem mem_alloc_best_fit_semantics (st : MemPool) (size t mb : Nat)
    (hbound : ∀ b ∈ st.blocks, b.size < 0xFFFFFFFF) :
    (mem_alloc_from_pool st 0 t mb = (st, none)) ∧
    (mem_free_in_pool st 0 = st) ∧
    (size ≠ 0 →
      (¬∃ b ∈ st.blocks, b.free = true ∧ mimic_align_size size ≤ b.size) →
      mem_alloc_from_pool st size t mb =
        ({ st with stats := { st.stats with
            failed_allocs := st.stats.failed_allocs + 1 } }, none)) ∧
    (size ≠ 0 →
      (∃ b ∈ st.blocks, b.free = true ∧ mimic_align_size size ≤ b.size) →
      ∃ i, i < st.blocks.length ∧
        (st.blocks.getD i memBlockDefault).free = true ∧
        mimic_align_size size ≤ (st.blocks.getD i memBlockDefault).size ∧
        (∀ b ∈ st.blocks, b.free = true → mimic_align_size size ≤ b.size →
          (st.blocks.getD i memBlockDefault).size ≤ b.size) ∧
        (mem_alloc_from_pool st size t mb).2 =
          some (st.blocks.getD i memBlockDefault).addr ∧
        ((mimic_align_size size + MIMIC_MIN_BLOCK_SPLIT <
            (st.blocks.getD i memBlockDefault).size ∧ st.blocks.length < mb) →
          (mem_alloc_from_pool st size t mb).1.blocks =
            st.blocks.set i
              ⟨(st.blocks.getD i memBlockDefault).addr, mimic_align_size size,
                t, false, (st.blocks.getD i memBlockDefault).pinned⟩ ++
              [⟨(st.blocks.getD i memBlockDefault).addr + mimic_align_size size,
                (st.blocks.getD i memBlockDefault).size - mimic_align_size size,
                0, true, false⟩]) ∧
        (¬(mimic_align_size size + MIMIC_MIN_BLOCK_SPLIT <
            (st.blocks.getD i memBlockDefault).size ∧ st.blocks.length < mb) →
          (mem_alloc_from_pool st size t mb).1.blocks =
            st.blocks.set i
              ⟨(st.blocks.getD i memBlockDefault).addr,
                (st.blocks.getD i memBlockDefault).size,
                t, false, (st.blocks.getD i memBlockDefault).pinned⟩)) := by
  refine ⟨by simp [mem_alloc_from_pool], by simp [mem_free_in_pool], ?_, ?_⟩
  · intro hsize hno
    have hnone : best_fit_search st.blocks 0 (mimic_align_size size) none = none := by
      rw [best_fit_none_iff]
      intro b hb hc
      exact hno ⟨b, hb, hc.1, hc.2.1⟩
    simp only [mem_alloc_from_pool, if_neg hsize, hnone]
  · intro hsize hex
    obtain ⟨b0, hb0mem, hb0free, hb0sz⟩ := hex
    have hnotnone :
        best_fit_search st.blocks 0 (mimic_align_size size) none ≠ none := by
      intro hn
      rw [best_fit_none_iff] at hn
      exact hn b0 hb0mem ⟨hb0free, hb0sz, hbound _ hb0mem⟩
    rcases hbf : best_fit_search st.blocks 0 (mimic_align_size size) none
      with _ | ⟨i0, s⟩
    · exact absurd hbf hnotnone
    rcases best_fit_some_spec _ 0 _ none i0 s hbf with hc | ⟨k, hk, hik, hkfree, hksz, hks⟩
    · cases hc
    have hik0 : i0 = k := by omega
    subst hik0
    refine ⟨i0, hk, hkfree, hksz, ?_, ?_, ?_, ?_⟩
    · intro b hb hbf2 hbs2
      rw [← hks]
      exact best_fit_min _ 0 _ none i0 s hbf b hb hbf2 hbs2 (hbound _ hb)
    · simp only [mem_alloc_from_pool, if_neg hsize, hbf]
    · intro hsplit
      simp only [mem_alloc_from_pool, if_neg hsize, hbf, if_pos hsplit]
      rw [getD_append_left _ _ _ _ (by simpa using hk),
        getD_set_self _ _ _ _ hk,
        set_append_left _ _ _ _ (by simpa using hk),
        List.set_set]
    · intro hsplit
      simp only [mem_alloc_from_pool, if_neg hsize, hbf, if_neg hsplit]

/-- Witness for `mem_alloc_best_fit_semantics` at a concrete one-block
pool: an allocation of size 0 returns null and leaves the pool
untouched. -/
theorem mem_alloc_best_fit_semantics_witness :
    mem_alloc_from_pool ⟨[⟨1024, 256, 0, true, false⟩], 256, ⟨0, 0, 0⟩⟩ 0 7 64 =
      (⟨[⟨1024, 256, 0, true, false⟩], 256, ⟨0, 0, 0⟩⟩, none) :=
  (mem_alloc_best_fit_semantics ⟨[⟨1024, 256, 0, true, false⟩], 256, ⟨0, 0, 0⟩⟩
    0 7 64 (by decide)).1

/-- C6 counterexample: a free block of 96 bytes and a request of 32 bytes.
The chosen block exceeds the request by exactly the 64-byte split threshold
and the block table is not full, so the claim requires a split; the code
(`block->size > size + MIMIC_MIN_BLOCK_SPLIT`, strict) hands out the whole
96-byte block without splitting. -/
theorem mem_alloc_no_split_at_threshold :
    (mem_alloc_from_pool ⟨[⟨1024, 96, 0, true, false⟩], 96, ⟨0, 0, 0⟩⟩
        32 7 64).1.blocks = [⟨1024, 96, 7, false, false⟩] ∧
    96 = mimic_align_size 32 + MIMIC_MIN_BLOCK_SPLIT ∧ 1 < 64 := by decide

/-- C1: the pipeline cannot produce the claimed `.mimi` for
`int main(){ return 42; }` — or any source.  The stub codegen ignores its
input and emits exactly the six bytes of `PUSH (r4-r7, lr)`, `MOV r0, #42`,
`POP (r4-r7, pc)` with no relocations but also NO symbols, so the linker
never sees a GLOBAL `main` and pass 5 fails with NOENT: no binary is
written at all (and the `.text` that was generated is 6 bytes, not the
claimed ≥ 12). -/
theorem pipeline_return42_no_binary :
    mimic_cc_codegen_object.text = [0xF0, 0xB5, 0x2A, 0x20, 0xF0, 0xBD] ∧
    mimic_cc_codegen_object.relocs = [] ∧
    mimic_cc_codegen_object.symbols = [] ∧
    mimic_cc_codegen_object.text.length = 6 ∧
    (∀ outname, mimic_cc_compile_backend outname =
      Except.error MIMIC_ERR_NOENT) := by
  refine ⟨by decide, rfl, rfl, by decide, ?_⟩
  intro outname
  rfl

/-- C10: loading never fails because of a malformed relocation record:
a record whose section is not TEXT, RODATA or DATA is silently skipped
(memory unchanged); a record whose `symbol_idx` is at or beyond the
header's symbol count, or that arrives when no symbol table was loaded,
is applied exactly as with symbol value 0; and the loop simply continues
with the next record, so the load can still return success. -/
theorem load_reloc_malformed_tolerated :
    (∀ (lay : TaskMemLayout) (symtab : Option (List MimiSymbol))
        (sc : Nat) (mem : List Nat) (r : MimiReloc),
      ¬(r.sect = MIMI_SECT_TEXT ∨ r.sect = MIMI_SECT_RODATA ∨
          r.sect = MIMI_SECT_DATA) →
      mimic_apply_reloc lay symtab sc mem r = mem) ∧
    (∀ (lay : TaskMemLayout) (symtab : Option (List MimiSymbol))
        (sc : Nat) (mem : List Nat) (r : MimiReloc),
      (sc ≤ r.symbol_idx ∨ symtab = none) →
      mimic_apply_reloc lay symtab sc mem r =
        mimic_apply_reloc lay none sc mem r) ∧
    (∀ (lay : TaskMemLayout) (sc : Nat) (mem : List Nat) (r : MimiReloc),
      (r.sect = MIMI_SECT_TEXT ∨ r.sect = MIMI_SECT_RODATA ∨
        r.sect = MIMI_SECT_DATA) →
      mimic_apply_reloc lay none sc mem r =
        mimic_apply_reloc_at mem (mimic_reloc_patch_addr lay r) 0 r.type) ∧
    (∀ (lay : TaskMemLayout) (symtab : Option (List MimiSymbol))
        (sc : Nat) (mem : List Nat) (r : MimiReloc) (rs : List MimiReloc),
      mimic_apply_relocs lay symtab sc mem (r :: rs) =
        mimic_apply_relocs lay symtab sc
          (mimic_apply_reloc lay symtab sc mem r) rs) := by
  refine ⟨?_, ?_, ?_, ?_⟩
  · intro lay symtab sc mem r h
    unfold mimic_apply_reloc
    rw [if_neg h]
  · intro lay symtab sc mem r h
    rcases h with h | h
    · cases symtab with
      | none => rfl
      | some tab =>
        unfold mimic_apply_reloc
        dsimp only
        rw [if_neg (Nat.not_lt.mpr h)]
    · subst h
      rfl
  · intro lay sc mem r h
    unfold mimic_apply_reloc
    rw [if_pos h]
  · intro lay symtab sc mem r rs
    rfl

/-- Witness for `load_reloc_malformed_tolerated` at concrete records: a
relocation with section 7 leaves a concrete 8-byte memory unchanged, and
an ABS32 relocation with `symbol_idx` beyond the symbol count is applied
with symbol value 0. -/
theorem load_reloc_malformed_tolerated_witness :
    mimic_apply_reloc ⟨0, 0, 2, 4, 6⟩ (some [⟨"f", 1, 1, 1⟩]) 1
      [1, 2, 3, 4, 5, 6, 7, 8] ⟨0, 7, 0, 0⟩ = [1, 2, 3, 4, 5, 6, 7, 8] ∧
    mimic_apply_reloc ⟨0, 0, 2, 4, 6⟩ (some [⟨"f", 1, 1, 1⟩]) 1
      [1, 2, 3, 4, 5, 6, 7, 8] ⟨0, 1, 0, 5⟩ =
      mimic_apply_reloc_at [1, 2, 3, 4, 5, 6, 7, 8]
        (mimic_reloc_patch_addr ⟨0, 0, 2, 4, 6⟩ ⟨0, 1, 0, 5⟩) 0 0 :=
  ⟨load_reloc_malformed_tolerated.1 ⟨0, 0, 2, 4, 6⟩ (some [⟨"f", 1, 1, 1⟩]) 1
      [1, 2, 3, 4, 5, 6, 7, 8] ⟨0, 7, 0, 0⟩ (by decide),
   (load_reloc_malformed_tolerated.2.1 ⟨0, 0, 2, 4, 6⟩
        (some [⟨"f", 1, 1, 1⟩]) 1 [1, 2, 3, 4, 5, 6, 7, 8] ⟨0, 1, 0, 5⟩
        (by decide)).trans
      (load_reloc_malformed_tolerated.2.2.1 ⟨0, 0, 2, 4, 6⟩ 1
        [1, 2, 3, 4, 5, 6, 7, 8] ⟨0, 1, 0, 5⟩ (by decide))⟩

/-- C8: the dispatcher has no case for syscall 12 (REALLOC) — nor for the
PWM (50-53), ADC (60-63), SPI (70-73) and I2C (80-82) rows of the §6
table — so those numbers fall into the `default:` branch and return
NOT_IMPLEMENTED, although the repo's own headers define
`MIMIC_SYS_REALLOC 12` and the user-side `realloc` invokes syscall 12.
Numbers with cases (here MALLOC) are dispatched to their handlers. -/
theorem syscall_realloc_not_implemented :
    mimic_syscall_action MIMIC_SYS_REALLOC 1 2048 64 0 0 = .sysNosys ∧
    mimic_syscall_action 50 1 0 0 0 0 = .sysNosys ∧
    mimic_syscall_action 60 1 0 0 0 0 = .sysNosys ∧
    mimic_syscall_action 70 1 0 0 0 0 = .sysNosys ∧
    mimic_syscall_action 82 1 0 0 0 0 = .sysNosys ∧
    mimic_syscall_action MIMIC_SYS_MALLOC 1 64 0 0 0 = .sysMalloc 1 64 := by
  decide

/-- C9: `mimic_fclose` never patches the containing directory entry.  Its
return code and resulting cache and disk are identical for any two handles
that agree on the `open` flag alone — the `file_size`, `first_cluster`,
`dir_cluster` and `dir_entry_idx` fields are never read — and the only
disk sector it can change is the one already sitting in the cache (the
write-back of the cached sector), never a freshly computed directory
sector. -/
theorem fclose_no_directory_update (files : List MimicFileHandle)
    (c : FatCache) (disk : Nat → List Nat) (fd : Nat) (o : Bool)
    (m1 dc1 de1 fc1 cc1 co1 fs1 p1 m2 dc2 de2 fc2 cc2 co2 fs2 p2 : Nat) :
    ((mimic_fclose (files.set fd ⟨o, m1, dc1, de1, fc1, cc1, co1, fs1, p1⟩)
        c disk fd).1 =
      (mimic_fclose (files.set fd ⟨o, m2, dc2, de2, fc2, cc2, co2, fs2, p2⟩)
        c disk fd).1) ∧
    ((mimic_fclose (files.set fd ⟨o, m1, dc1, de1, fc1, cc1, co1, fs1, p1⟩)
        c disk fd).2.2 =
      (mimic_fclose (files.set fd ⟨o, m2, dc2, de2, fc2, cc2, co2, fs2, p2⟩)
        c disk fd).2.2) ∧
    (∀ s, (mimic_fclose files c disk fd).2.2.2 s = disk s ∨
      ((mimic_fclose files c disk fd).2.2.2 s = c.sector_buf ∧
        s = c.cached_sector)) := by
  refine ⟨?_, ?_, ?_⟩
  · by_cases h1 : fd ≥ MIMIC_MAX_FILES
    · unfold mimic_fclose
      rw [if_pos h1, if_pos h1]
    · by_cases h2 : fd < files.length
      · unfold mimic_fclose
        rw [if_neg h1, if_neg h1, getD_set_self _ _ _ _ h2,
          getD_set_self _ _ _ _ h2]
        split_ifs <;> rfl
      · rw [List.set_eq_of_length_le (by omega),
          List.set_eq_of_length_le (by omega)]
  · by_cases h1 : fd ≥ MIMIC_MAX_FILES
    · unfold mimic_fclose
      rw [if_pos h1, if_pos h1]
    · by_cases h2 : fd < files.length
      · unfold mimic_fclose
        rw [if_neg h1, if_neg h1, getD_set_self _ _ _ _ h2,
          getD_set_self _ _ _ _ h2]
        split_ifs <;> rfl
      · rw [List.set_eq_of_length_le (by omega),
          List.set_eq_of_length_le (by omega)]
  · intro s
    unfold mimic_fclose
    split_ifs with h1 h2
    · exact Or.inl rfl
    · exact Or.inl rfl
    · show (fat32_flush_cache c disk).2 s = disk s ∨
        ((fat32_flush_cache c disk).2 s = c.sector_buf ∧ s = c.cached_sector)
      unfold fat32_flush_cache
      split_ifs with hd
      · by_cases hs : s = c.cached_sector
        · exact Or.inr ⟨by simp [hs], hs⟩
        · exact Or.inl (by simp [hs])
      · exact Or.inl rfl

/-- C3 (amended): header validation accepts exactly the headers with good
magic, version 1, matching architecture, nonzero `text_size` and
`entry_offset < text_size`; magic is checked first and version second, each
failure returning before any later field is read; but the failures yield
`CORRUPT` (magic), `INVAL` (version, `text_size`, `entry_offset`) or
`NOEXEC` (architecture), not uniformly the NOT_EXECUTABLE error. -/
theorem validate_header_cases (hdr : MimiHeader) :
    (mimic_validate_header hdr = MIMIC_OK ↔
      (hdr.magic = MIMI_MAGIC ∧ hdr.version = MIMI_VERSION ∧
       hdr.arch = MIMI_ARCH_CORTEX_M0P ∧ 0 < hdr.text_size ∧
       hdr.entry_offset < hdr.text_size)) ∧
    (hdr.magic ≠ MIMI_MAGIC → mimic_validate_header hdr = MIMIC_ERR_CORRUPT) ∧
    (hdr.magic = MIMI_MAGIC → hdr.version ≠ MIMI_VERSION →
      mimic_validate_header hdr = MIMIC_ERR_INVAL) ∧
    (hdr.magic = MIMI_MAGIC → hdr.version = MIMI_VERSION →
      hdr.arch ≠ MIMI_ARCH_CORTEX_M0P →
      mimic_validate_header hdr = MIMIC_ERR_NOEXEC) ∧
    (hdr.magic = MIMI_MAGIC → hdr.version = MIMI_VERSION →
      hdr.arch = MIMI_ARCH_CORTEX_M0P →
      hdr.entry_offset ≥ hdr.text_size →
      mimic_validate_header hdr = MIMIC_ERR_INVAL) := by
  unfold mimic_validate_header
  refine ⟨?_, ?_, ?_, ?_, ?_⟩ <;>
    · split_ifs <;> simp_all [MIMIC_OK, MIMIC_ERR_CORRUPT, MIMIC_ERR_INVAL,
        MIMIC_ERR_NOEXEC] <;> omega

/-- Witness for `validate_header_cases` at a concrete header: a header whose
magic is wrong is rejected with `CORRUPT`, and a header with
`entry_offset = text_size` is rejected with `INVAL`. -/
theorem validate_header_cases_witness :
    mimic_validate_header
      ⟨0, 1, 0, 0, 0, 4, 0, 0, 0, 0, 0, 0, 0, []⟩ = MIMIC_ERR_CORRUPT ∧
    mimic_validate_header
      ⟨MIMI_MAGIC, 1, 0, 0, 4, 4, 0, 0, 0, 0, 0, 0, 0, []⟩ = MIMIC_ERR_INVAL :=
  ⟨(validate_header_cases _).2.1 (by decide),
   (validate_header_cases _).2.2.2.2 (by decide) (by decide) (by decide)
     (by decide)⟩

/-- C3 counterexample: the claim says every failing header yields the
NOT_EXECUTABLE error, but a header with bad magic (all other fields fine)
is rejected with `CORRUPT`, not `NOEXEC`. -/
theorem validate_header_not_always_noexec :
    mimic_validate_header ⟨0, 1, 0, 0, 0, 4, 0, 0, 0, 0, 0, 0, 0, []⟩ ≠ MIMIC_OK ∧
    mimic_validate_header ⟨0, 1, 0, 0, 0, 4, 0, 0, 0, 0, 0, 0, 0, []⟩ ≠
      MIMIC_ERR_NOEXEC := by
  decide
